import Mathlib

/-!
Verification of the Splittable DoFn direct-runner execution core
(`apache_beam/runners/direct/sdf_direct_runner.py`) and of the binary
stream codec exercised by `apache_beam/coders/stream_test.py`.

The development is a shallow embedding:

* `SdfDirectRunner` embeds `SDFProcessElementInvoker.invoke_process_element`
  (the checkpoint coordinator), its local `initiate_checkpoint` closure
  (both as an atomic sequential function and as a two-thread small-step
  interleaving model of its lock / flag / `tracker.checkpoint()` lines),
  and `ProcessFn.process` (seed/resumption classification, consumption of
  the session's yields, and the post-session state transition).

  Collaborator classes that the excerpt only imports
  (`ElementAndRestriction`, `WindowedValue`, the keyed state facility,
  the `WatermarkManager` watermark sentinels, `RestrictionTracker`) are
  modelled from the specification, as recorded on each definition.

* `SlowStream` models the byte stream codec
  (`apache_beam/coders/slow_stream.py`, absent from the excerpt; modelled
  from the specification's §4.3 and the byte-level contracts fixed by
  `stream_test.py`): the two's-complement varint for signed 64-bit
  integers, the fixed-width big-endian 32/64-bit codecs, the big-endian
  IEEE-754 double (represented by its 64-bit pattern), and the
  byte-counting output stream.

Python idioms are embedded explicitly: truthiness of an opaque
restriction value is a parameter `truthy : R → Bool`, `None` becomes
`Option.none`, a `max_num_outputs` of `None` becomes `Option.none` while
`0` stays `some 0` (Python tests `if self._max_num_outputs and ...`), and
assertion failures become error values.
-/

namespace SdfDirectRunner

/-- Modelled from the spec: a `RestrictionTracker` collaborator
(`apache_beam.io.iobase.RestrictionTracker`, not in the excerpt), reduced
to what `invoke_process_element` uses of it in one session: the residual
restriction a `checkpoint()` call captures, and whether `check_done()`
succeeds (it raises otherwise). -/
structure Tracker (R : Type) where
  ckres : R
  checkDoneOk : Bool
  deriving DecidableEq, Repr

/-- Embedding of the local `CheckpointState` class of
`invoke_process_element` (source lines 287–293): the one-shot flag
(`checkpointed`, a `None`-or-`object()` in Python, so a `Bool` here) and
the captured residual. Two ghost counters record how many times
`tracker.checkpoint()` ran and how many times `initiate_checkpoint` was
entered; they exist only to state the claims. -/
structure CheckpointState (R : Type) where
  checkpointed : Bool
  residual_restriction : Option R
  trackerCheckpointCalls : Nat
  initiateCalls : Nat
  deriving DecidableEq, Repr

def CheckpointState.init {R : Type} : CheckpointState R :=
  { checkpointed := false
    residual_restriction := none
    trackerCheckpointCalls := 0
    initiateCalls := 0 }

/-- Embedding of `initiate_checkpoint` (source lines 295–300) under
sequential, non-overlapping invocation: if the one-shot flag is set the
call returns at once; otherwise it runs `tracker.checkpoint()`, stores
the residual, and sets the flag. The interleaved (two-thread) behaviour
of the same source lines is modelled separately by `ckStep` below. -/
def initiate_checkpoint {R : Type} (t : Tracker R) (s : CheckpointState R) :
    CheckpointState R :=
  if s.checkpointed then
    { s with initiateCalls := s.initiateCalls + 1 }
  else
    { checkpointed := true
      residual_restriction := some t.ckres
      trackerCheckpointCalls := s.trackerCheckpointCalls + 1
      initiateCalls := s.initiateCalls + 1 }

/-- Items produced by the user `process()` routine, as inspected by the
coordinator loop: a plain output value or a `ProcessContinuation` marker
(`apache_beam.transforms.core.ProcessContinuation`, modelled from the
spec as a distinguished marker since its class is not in the excerpt). -/
inductive Item (V : Type) where
  | output (v : V)
  | continuation
  deriving DecidableEq, Repr

/-- Embedding of `SDFProcessElementInvoker.Result` (source lines 243–262):
all three fields default to `None`; the coordinator only ever fills
`residual_restriction` (source lines 337–341). -/
structure Result (R : Type) where
  residual_restriction : Option R
  process_continuation : Option Unit
  future_output_watermark : Option Int
  deriving DecidableEq, Repr

/-- Items the generator `invoke_process_element` yields to its caller:
re-yielded plain outputs, and the terminal `Result`. -/
inductive Yielded (V R : Type) where
  | out (v : V)
  | result (r : Result R)
  deriving DecidableEq, Repr

def isResultItem {V R : Type} : Yielded V R → Bool
  | Yielded.result _ => true
  | Yielded.out _ => false

/-- Output values of a yield list, dropping `Result` items. -/
def outValues {V R : Type} (ys : List (Yielded V R)) : List V :=
  ys.filterMap fun y => match y with
    | Yielded.out v => some v
    | Yielded.result _ => none

/-- Whether a yield list carries no `Result` item. -/
def noResultYields {V R : Type} (ys : List (Yielded V R)) : Bool :=
  ys.all fun y => !isResultItem y

/-- Ways a session can terminate with an exception instead of a `Result`:
the `assert not process_continuation` on an item after a continuation
marker (source line 316), or `tracker.check_done()` raising (line 336). -/
inductive SessionError where
  | continuationNotLast
  | checkDoneFailed
  deriving DecidableEq, Repr

/-- Embedding of the re-yield loop of `invoke_process_element` (source
lines 313–334). Arguments after the item list: the duration alarm as a
countdown (`some k` fires `initiate_checkpoint` just before the `k`-th
remaining iteration, or before `check_done` when the loop ends first;
`none` means the alarm does not fire during the session), then the
checkpoint state, `output_count`, and the `process_continuation` flag.
Returns the yielded outputs, the error that stopped the loop if any, and
the final checkpoint state. -/
def sessionLoop {V R : Type} (t : Tracker R) (max_num_outputs : Option Nat) :
    List (Item V) → Option Nat → CheckpointState R → Nat → Bool →
      List (Yielded V R) × Option SessionError × CheckpointState R
  | [], timer, ck, _, _ =>
      ([], none, if timer.isSome then initiate_checkpoint t ck else ck)
  | item :: rest, timer, ck, count, contSeen =>
      let ck1 := if timer = some 0 then initiate_checkpoint t ck else ck
      let timer1 : Option Nat := match timer with
        | some (n + 1) => some n
        | _ => none
      if contSeen then
        ([], some SessionError.continuationNotLast, ck1)
      else
        match item with
        | Item.continuation =>
            sessionLoop t max_num_outputs rest timer1
              (initiate_checkpoint t ck1) count true
        | Item.output v =>
            let count1 := count + 1
            let hitLimit := match max_num_outputs with
              | some m => decide (m ≠ 0) && decide (m ≤ count1)
              | none => false
            let ck2 := if hitLimit then initiate_checkpoint t ck1 else ck1
            let rec1 := sessionLoop t max_num_outputs rest timer1 ck2 count1 contSeen
            (Yielded.out v :: rec1.1, rec1.2.1, rec1.2.2)

/-- Everything observable about one `invoke_process_element` session: the
yields in order, the exception that ended the generator if any, the final
checkpoint state, and a ghost count of `tracker.check_done()` calls. -/
structure SessionOutcome (V R : Type) where
  yields : List (Yielded V R)
  error : Option SessionError
  ckState : CheckpointState R
  checkDoneCalls : Nat
  deriving DecidableEq, Repr

/-- Embedding of `SDFProcessElementInvoker.invoke_process_element`
(source lines 273–342) for one session over a finite user-output
sequence: run the re-yield loop, then call `tracker.check_done()`
unconditionally, then build the terminal `Result` — carrying the captured
residual exactly when that residual is truthy (`if
checkpoint_state.residual_restriction`), else an empty `Result()` — and
yield it last. `truthy` is Python truthiness on restriction values. -/
def invoke_process_element {V R : Type} (truthy : R → Bool)
    (max_num_outputs : Option Nat) (t : Tracker R) (timer : Option Nat)
    (items : List (Item V)) : SessionOutcome V R :=
  let L := sessionLoop t max_num_outputs items timer CheckpointState.init 0 false
  match L.2.1 with
  | some e =>
      { yields := L.1, error := some e, ckState := L.2.2, checkDoneCalls := 0 }
  | none =>
      let ck := L.2.2
      if t.checkDoneOk then
        let residualTruthy := match ck.residual_restriction with
          | some r0 => truthy r0
          | none => false
        let res : Result R :=
          if residualTruthy then
            { residual_restriction := ck.residual_restriction
              process_continuation := none
              future_output_watermark := none }
          else
            { residual_restriction := none
              process_continuation := none
              future_output_watermark := none }
        { yields := L.1 ++ [Yielded.result res], error := none, ckState := ck
          checkDoneCalls := 1 }
      else
        { yields := L.1, error := some SessionError.checkDoneFailed, ckState := ck
          checkDoneCalls := 1 }

/-- Outputs re-yielded by a session, without the terminal `Result`. -/
def SessionOutcome.outItems {V R : Type} (o : SessionOutcome V R) : List V :=
  outValues o.yields

/-- The terminal `Result` a checkpoint state determines (the
construction at source lines 337–341): the captured residual when that
residual is truthy, an empty `Result()` otherwise. -/
def resultOfCk {R : Type} (truthy : R → Bool) (ck : CheckpointState R) :
    Result R :=
  match ck.residual_restriction with
  | some r0 =>
      if truthy r0 then
        { residual_restriction := some r0
          process_continuation := none
          future_output_watermark := none }
      else
        { residual_restriction := none
          process_continuation := none
          future_output_watermark := none }
  | none =>
      { residual_restriction := none
        process_continuation := none
        future_output_watermark := none }

/-- The terminal `Result` of a completed session. -/
def sessionResult {V R : Type} (truthy : R → Bool) (o : SessionOutcome V R) :
    Result R :=
  resultOfCk truthy o.ckState

/-! ### Interleaved execution of `initiate_checkpoint`

The body of `initiate_checkpoint` (source lines 295–300) is not one
atomic action: the `with self._checkpoint_lock` block covers only the
read of the one-shot flag; `tracker.checkpoint()` runs after the lock is
released, and the flag is assigned only after `tracker.checkpoint()`
returns. The duration alarm (`Timer(self._max_duration,
initiate_checkpoint)`, source line 303) runs the same closure on a
separate thread, so two invocations can overlap. The small-step model
below gives each invocation a program counter over the three regions of
the body and lets a schedule interleave two invocations. -/

/-- Program counter of one thread running `initiate_checkpoint`:
before the locked flag check, before the `tracker.checkpoint()` call,
before the flag assignment, or finished. -/
inductive CkPC where
  | start
  | preCheckpoint
  | preFlag
  | done
  deriving DecidableEq, Repr

/-- One atomic step of a thread running `initiate_checkpoint` against the
shared `checkpoint_state`. From `start`, the locked region reads the
flag and either returns or proceeds; from `preCheckpoint`, the thread
runs `tracker.checkpoint()` and stores the residual; from `preFlag`, it
assigns the one-shot flag. -/
def ckStep {R : Type} (t : Tracker R) :
    CkPC → CheckpointState R → CkPC × CheckpointState R
  | CkPC.start, s =>
      if s.checkpointed then (CkPC.done, { s with initiateCalls := s.initiateCalls + 1 })
      else (CkPC.preCheckpoint, { s with initiateCalls := s.initiateCalls + 1 })
  | CkPC.preCheckpoint, s =>
      (CkPC.preFlag,
        { s with
          residual_restriction := some t.ckres
          trackerCheckpointCalls := s.trackerCheckpointCalls + 1 })
  | CkPC.preFlag, s => (CkPC.done, { s with checkpointed := true })
  | CkPC.done, s => (CkPC.done, s)

/-- Two overlapping `initiate_checkpoint` invocations (the main iteration
and the duration-alarm thread) with the shared checkpoint state. -/
structure TwoCalls (R : Type) where
  pc1 : CkPC
  pc2 : CkPC
  shared : CheckpointState R
  deriving DecidableEq, Repr

def TwoCalls.init {R : Type} : TwoCalls R :=
  { pc1 := CkPC.start, pc2 := CkPC.start, shared := CheckpointState.init }

/-- Run a schedule over the two invocations: `true` steps the first
thread, `false` the second. -/
def ckRun {R : Type} (t : Tracker R) : List Bool → TwoCalls R → TwoCalls R
  | [], st => st
  | b :: sched, st =>
      if b then
        let p := ckStep t st.pc1 st.shared
        ckRun t sched { st with pc1 := p.1, shared := p.2 }
      else
        let p := ckStep t st.pc2 st.shared
        ckRun t sched { st with pc2 := p.1, shared := p.2 }

/-! ### `ProcessFn` -/

/-- Modelled from the spec: the two watermark sentinels of
`WatermarkManager` (`WATERMARK_POS_INF`, `WATERMARK_NEG_INF`; the class
is not in the excerpt), the only watermark values `ProcessFn` writes. -/
inductive Watermark where
  | posInf
  | negInf
  deriving DecidableEq, Repr

/-- Modelled from the spec: the per-key-per-window slice of the external
state facility (`DirectStepContext` keyed state, not in the excerpt) as
the spec's three value slots — `element`, `restriction`,
`watermark_hold` — where an unset slot reads back empty (`none`), plus
the timers armed through `state.set_timer` (each a watermark value,
since `ProcessFn` only sets watermark-domain timers). -/
structure KeyedState (E R : Type) where
  element : Option E
  restriction : Option R
  watermark_hold : Option Watermark
  timers : List Watermark
  deriving DecidableEq, Repr

def KeyedState.empty {E R : Type} : KeyedState E R :=
  { element := none, restriction := none, watermark_hold := none, timers := [] }

/-- Modelled from the spec: the values that can sit in the keyed
iterable handed to `ProcessFn.process` — an `ElementAndRestriction`
pairing (`apache_beam.runners.sdf_common.ElementAndRestriction`, not in
the excerpt) or a `WindowedValue` (`apache_beam.utils.windowed_value`,
not in the excerpt). The two classes are unrelated in Python, so they
are disjoint constructors here. -/
inductive InValue (E R W : Type) where
  | ear (e : E) (r : R)
  | windowed (e : E) (ts : Int) (ws : List W)
  deriving DecidableEq, Repr

/-- Embedding of a `WindowedValue` as constructed by `ProcessFn.process`
(source lines 158, 167–171). -/
structure WindowedValue (E W : Type) where
  value : E
  timestamp : Int
  windows : List W
  deriving DecidableEq, Repr

/-- Input to one `ProcessFn.process` call (source lines 133–148): a
`KeyedWorkItem` (a timer firing, carrying only the key) or a grouped
`(key, values)` pair. -/
inductive WorkInput (K E R W : Type) where
  | keyedWorkItem (key : K)
  | keyedValues (key : K) (values : List (InValue E R W))
  deriving DecidableEq, Repr

/-- Assertion failures of the front part of `ProcessFn.process`: the
`assert len(values) == 1` on the grouped values (source line 139), and
the seed-call `assert isinstance(value, ElementAndRestriction)` (source
line 162) — the latter also covers a timer firing with no stored
element, where `value` was never bound. -/
inductive FrontError where
  | valuesNotSingleton
  | seedValueNotEAR
  deriving DecidableEq, Repr

/-- Embedding of source lines 133–148: a timer firing binds no `value`;
a grouped input must hold exactly one value. -/
def extractValue {K E R W : Type} :
    WorkInput K E R W → Except FrontError (Option (InValue E R W))
  | WorkInput.keyedWorkItem _ => Except.ok none
  | WorkInput.keyedValues _ [v] => Except.ok (some v)
  | WorkInput.keyedValues _ _ => Except.error FrontError.valuesNotSingleton

def earParts {E R W : Type} : InValue E R W → Option (E × R)
  | InValue.ear e r => some (e, r)
  | InValue.windowed _ _ _ => none

/-- What the front part of `ProcessFn.process` establishes before the
session: the element, the restriction the tracker is created from
(`none` models a restriction slot that reads back empty), the windowed
element, and the `is_seed_call` classification. -/
structure FrontResult (E R W : Type) where
  element : E
  restriction : Option R
  windowed_element : WindowedValue E W
  is_seed_call : Bool
  deriving DecidableEq, Repr

/-- Embedding of `ProcessFn.process` up to the tracker creation (source
lines 133–171): extract the single value if any, classify the call as a
seed call exactly when the element state slot is empty (`is_seed_call =
not element_state`), read `element`/`restriction` back from state on a
resumption, and on a seed call assert the value is an
`ElementAndRestriction` and build the windowed element — through the
source's `isinstance(value, WindowedValue)` branch, kept here verbatim
even though it can only take its else arm once the assert passed. -/
def processFnFront {K E R W : Type} (input : WorkInput K E R W)
    (st : KeyedState E R) (ts : Int) (w : W) :
    Except FrontError (FrontResult E R W) :=
  match extractValue input with
  | Except.error e => Except.error e
  | Except.ok value? =>
      match st.element with
      | some e =>
          Except.ok
            { element := e
              restriction := st.restriction
              windowed_element := { value := e, timestamp := ts, windows := [w] }
              is_seed_call := false }
      | none =>
          match value? with
          | none => Except.error FrontError.seedValueNotEAR
          | some value =>
              match earParts value with
              | none => Except.error FrontError.seedValueNotEAR
              | some p =>
                  let we : WindowedValue E W :=
                    match value with
                    | InValue.windowed _ vts vws =>
                        { value := p.1, timestamp := vts, windows := vws }
                    | InValue.ear _ _ =>
                        { value := p.1, timestamp := ts, windows := [w] }
                  Except.ok
                    { element := p.1
                      restriction := some p.2
                      windowed_element := we
                      is_seed_call := true }

/-- Embedding of the consumption loop of `ProcessFn.process` (source
lines 181–187): re-yield every output until the first
`SDFProcessElementInvoker.Result`, which is kept and not re-yielded. -/
def processFnConsume {V R : Type} :
    List (Yielded V R) → List V × Option (Result R)
  | [] => ([], none)
  | Yielded.result r :: _ => ([], some r)
  | Yielded.out v :: rest =>
      let p := processFnConsume rest
      (v :: p.1, p.2)

/-- Python truthiness of `sdf_result.residual_restriction` (the test at
source line 193): `None` and a falsy restriction value are both empty. -/
def residualFalsy {R : Type} (truthy : R → Bool) (res : Result R) : Bool :=
  match res.residual_restriction with
  | none => true
  | some r => !truthy r

/-- Embedding of the post-session state transition of
`ProcessFn.process` (source lines 193–215): an empty residual clears the
`element` and `restriction` slots and sets the watermark hold to the
positive-infinity sentinel; a non-empty residual writes the element and
the residual back, sets the hold to the negative-infinity sentinel, and
arms a watermark timer at negative infinity. -/
def processFnPostSession {E R : Type} (truthy : R → Bool) (element : E)
    (res : Result R) (st : KeyedState E R) : KeyedState E R :=
  if residualFalsy truthy res then
    { st with
      element := none
      restriction := none
      watermark_hold := some Watermark.posInf }
  else
    { st with
      element := some element
      restriction := res.residual_restriction
      watermark_hold := some Watermark.negInf
      timers := st.timers ++ [Watermark.negInf] }

/-- Exceptions of a whole `ProcessFn.process` call: a front assertion, an
exception propagating out of the session generator, or the `assert
sdf_result` at source line 189 when no `Result` was yielded. -/
inductive ProcessError where
  | front (e : FrontError)
  | session (e : SessionError)
  | noResult
  deriving DecidableEq, Repr

/-- Embedding of one whole `ProcessFn.process` call (source lines
131–215). The tracker and the user routine's output sequence stand in
for the external `sdf_invoker`; the call returns the re-yielded outputs
and the updated keyed state. -/
def processFn {K E V R W : Type} (truthy : R → Bool)
    (max_num_outputs : Option Nat) (t : Tracker R) (timer : Option Nat)
    (items : List (Item V)) (input : WorkInput K E R W) (st : KeyedState E R)
    (ts : Int) (w : W) : Except ProcessError (List V × KeyedState E R) :=
  match processFnFront input st ts w with
  | Except.error e => Except.error (ProcessError.front e)
  | Except.ok fr =>
      let o := invoke_process_element truthy max_num_outputs t timer items
      match o.error with
      | some e => Except.error (ProcessError.session e)
      | none =>
          let p := processFnConsume o.yields
          match p.2 with
          | none => Except.error ProcessError.noResult
          | some res =>
              Except.ok (p.1, processFnPostSession truthy fr.element res st)

end SdfDirectRunner

namespace SlowStream

/-!
Modelled from the spec: the pure-Python byte stream codec
(`apache_beam/coders/slow_stream.py` is not in the excerpt; only its test
`apache_beam/coders/stream_test.py` is). §4.3 of the specification fixes
the schemes — a two's-complement varint for signed 64-bit integers,
fixed-width big-endian 32/64-bit integers (4 and 8 bytes), a big-endian
8-byte IEEE-754 double, a nested byte-string write prefixed with its own
encoded length — and `stream_test.py` fixes the exact byte counts. A byte
is a `Nat` below 256; an IEEE-754 double is represented by its 64-bit
bit pattern, under which the big-endian pack/unpack pair is exact (the
`+inf` double is the pattern `0x7FF0000000000000`).
-/

/-- Modelled from the spec: the emit loop of `write_var_int64` on the
non-negative two's-complement image `v < 2^64`: seven value bits per
byte, low group first, high bit set on every byte but the last. The
fuel only bounds the recursion; ten bytes cover any `v < 128^10`. -/
def varEncodeAux : Nat → Nat → List Nat
  | 0, _ => []
  | fuel + 1, v =>
      let bits := v % 128
      let rest := v / 128
      if rest = 0 then [bits] else (bits + 128) :: varEncodeAux fuel rest

/-- Modelled from the spec: `OutputStream.write_var_int64` — fold a
signed 64-bit integer into its two's-complement image in `[0, 2^64)` and
emit it as a varint. -/
def write_var_int64 (v : Int) : List Nat :=
  varEncodeAux 10 ((v % ((2 : Int) ^ 64)).toNat)

/-- Modelled from the spec: the accumulate loop of `read_var_int64`:
consume bytes while the high bit is set, adding each seven-bit group at
the current shift; reject a varint that runs past 64 bits or is
truncated. Returns the accumulated `Nat` and the remaining bytes. -/
def varDecodeAux : Nat → List Nat → Nat → Nat → Option (Nat × List Nat)
  | 0, _, _, _ => none
  | _ + 1, [], _, _ => none
  | fuel + 1, b :: bs, shift, acc =>
      let bits := b % 128
      if 64 ≤ shift ∨ (63 ≤ shift ∧ 1 < bits) then none
      else
        let acc1 := acc + bits * 2 ^ shift
        if b < 128 then some (acc1, bs)
        else varDecodeAux fuel bs (shift + 7) acc1

/-- Modelled from the spec: `InputStream.read_var_int64` — decode the
varint and reinterpret the 64-bit image as a signed two's-complement
value. -/
def read_var_int64 (bs : List Nat) : Option (Int × List Nat) :=
  match varDecodeAux 10 bs 0 0 with
  | none => none
  | some p =>
      some ((if 2 ^ 63 ≤ p.1 then (p.1 : Int) - 2 ^ 64 else (p.1 : Int)), p.2)

/-- Modelled from the spec: the `w` big-endian bytes of `v < 256^w`,
most significant byte first. -/
def bytesBE : Nat → Nat → List Nat
  | 0, _ => []
  | w + 1, v => v / 256 ^ w :: bytesBE w (v % 256 ^ w)

/-- Modelled from the spec: consume `w` bytes big-endian into an
accumulator; `none` on truncated input. -/
def readBEAux : Nat → List Nat → Nat → Option (Nat × List Nat)
  | 0, bs, acc => some (acc, bs)
  | _ + 1, [], _ => none
  | w + 1, b :: bs, acc => readBEAux w bs (acc * 256 + b)

/-- Reinterpret an unsigned `bits`-bit image as a signed two's-complement
value. -/
def toSigned (bits : Nat) (n : Nat) : Int :=
  if n < 2 ^ (bits - 1) then (n : Int) else (n : Int) - 2 ^ bits

/-- Modelled from the spec: `OutputStream.write_bigendian_uint64`. -/
def write_bigendian_uint64 (v : Nat) : List Nat := bytesBE 8 (v % 2 ^ 64)

/-- Modelled from the spec: `OutputStream.write_bigendian_int64`. -/
def write_bigendian_int64 (v : Int) : List Nat :=
  bytesBE 8 ((v % ((2 : Int) ^ 64)).toNat)

/-- Modelled from the spec: `OutputStream.write_bigendian_uint32`. -/
def write_bigendian_uint32 (v : Nat) : List Nat := bytesBE 4 (v % 2 ^ 32)

/-- Modelled from the spec: `OutputStream.write_bigendian_int32`. -/
def write_bigendian_int32 (v : Int) : List Nat :=
  bytesBE 4 ((v % ((2 : Int) ^ 32)).toNat)

/-- Modelled from the spec: `OutputStream.write_bigendian_double`, on the
64-bit pattern of the double. -/
def write_bigendian_double (pattern : Nat) : List Nat :=
  bytesBE 8 (pattern % 2 ^ 64)

/-- Modelled from the spec: `InputStream.read_bigendian_uint64`. -/
def read_bigendian_uint64 (bs : List Nat) : Option (Nat × List Nat) :=
  readBEAux 8 bs 0

/-- Modelled from the spec: `InputStream.read_bigendian_int64`. -/
def read_bigendian_int64 (bs : List Nat) : Option (Int × List Nat) :=
  match readBEAux 8 bs 0 with
  | none => none
  | some p => some (toSigned 64 p.1, p.2)

/-- Modelled from the spec: `InputStream.read_bigendian_uint32`. -/
def read_bigendian_uint32 (bs : List Nat) : Option (Nat × List Nat) :=
  readBEAux 4 bs 0

/-- Modelled from the spec: `InputStream.read_bigendian_int32`. -/
def read_bigendian_int32 (bs : List Nat) : Option (Int × List Nat) :=
  match readBEAux 4 bs 0 with
  | none => none
  | some p => some (toSigned 32 p.1, p.2)

/-- Modelled from the spec: `InputStream.read_bigendian_double`,
returning the 64-bit pattern of the double. -/
def read_bigendian_double (bs : List Nat) : Option (Nat × List Nat) :=
  readBEAux 8 bs 0

/-- One write call against an output stream, covering every primitive the
byte-counting test drives (`stream_test.py` lines 130–152): a raw
byte-string write with its `nested` flag, a single byte, and the numeric
primitives. -/
inductive WriteOp where
  | write (bs : List Nat) (nested : Bool)
  | write_byte (b : Nat)
  | write_var_int64 (v : Int)
  | write_bigendian_int64 (v : Int)
  | write_bigendian_uint64 (v : Nat)
  | write_bigendian_int32 (v : Int)
  | write_bigendian_uint32 (v : Nat)
  | write_bigendian_double (pattern : Nat)
  deriving DecidableEq, Repr

/-- Modelled from the spec: the bytes `OutputStream` appends for one
write call; a nested byte-string write first emits the varint of the
payload length. -/
def opBytes : WriteOp → List Nat
  | WriteOp.write bs nested =>
      (if nested then write_var_int64 (bs.length : Int) else []) ++ bs
  | WriteOp.write_byte b => [b % 256]
  | WriteOp.write_var_int64 v => write_var_int64 v
  | WriteOp.write_bigendian_int64 v => write_bigendian_int64 v
  | WriteOp.write_bigendian_uint64 v => write_bigendian_uint64 v
  | WriteOp.write_bigendian_int32 v => write_bigendian_int32 v
  | WriteOp.write_bigendian_uint32 v => write_bigendian_uint32 v
  | WriteOp.write_bigendian_double p => write_bigendian_double p

/-- Modelled from the spec: the buffer of the real `OutputStream` after a
sequence of write calls. -/
def outputStreamRun (ops : List WriteOp) : List Nat :=
  match ops with
  | [] => []
  | op :: rest => opBytes op ++ outputStreamRun rest

/-- Modelled from the spec: the count `ByteCountingOutputStream` adds for
one write call — it tracks sizes without retaining bytes: a raw write
adds the payload length (plus, when nested, the size of the encoded
length header), a byte adds 1, a varint adds its encoded size, the
fixed-width 32-bit writes add exactly 4 and the 64-bit and double writes
exactly 8. -/
def opCount : WriteOp → Nat
  | WriteOp.write bs nested =>
      (if nested then (write_var_int64 (bs.length : Int)).length else 0) + bs.length
  | WriteOp.write_byte _ => 1
  | WriteOp.write_var_int64 v => (write_var_int64 v).length
  | WriteOp.write_bigendian_int64 _ => 8
  | WriteOp.write_bigendian_uint64 _ => 8
  | WriteOp.write_bigendian_int32 _ => 4
  | WriteOp.write_bigendian_uint32 _ => 4
  | WriteOp.write_bigendian_double _ => 8

/-- Modelled from the spec: `ByteCountingOutputStream.get_count` after a
sequence of write calls. -/
def byteCountingRun (ops : List WriteOp) : Nat :=
  match ops with
  | [] => 0
  | op :: rest => opCount op + byteCountingRun rest

end SlowStream

/-- Python truthiness of a list-valued restriction (an empty list is
falsy), the concrete instantiation used by witnesses. -/
def listTruthy (r : List Nat) : Bool := !r.isEmpty

/-- A concrete session used as a witness input: one plain output followed
by a continuation marker, against a tracker whose `checkpoint()` captures
the truthy residual `[7]` and whose `check_done()` passes. -/
def sampleSession : SdfDirectRunner.SessionOutcome Nat (List Nat) :=
  SdfDirectRunner.invoke_process_element listTruthy none ⟨[7], true⟩ none
    [SdfDirectRunner.Item.output 1, SdfDirectRunner.Item.continuation]

namespace SdfDirectRunner

theorem outValues_map_out {V R : Type} (vs : List V) :
    outValues (vs.map (Yielded.out (R := R))) = vs := by
  induction vs with
  | nil => rfl
  | cons v vs ih => simpa [outValues, List.filterMap_cons] using ih

theorem outValues_outs_result {V R : Type} (vs : List V) (res : Result R) :
    outValues (vs.map Yielded.out ++ [Yielded.result res]) = vs := by
  induction vs with
  | nil => rfl
  | cons v vs ih => simpa [outValues, List.filterMap_cons] using ih

theorem noResultYields_map_out {V R : Type} (vs : List V) :
    noResultYields (vs.map (Yielded.out (R := R))) = true := by
  induction vs with
  | nil => rfl
  | cons v vs ih => simp only [List.map_cons, noResultYields, List.all_cons,
      isResultItem, Bool.not_false, Bool.true_and]; exact ih

theorem processFnConsume_outs_result {V R : Type} (vs : List V) (res : Result R) :
    processFnConsume (vs.map Yielded.out ++ [Yielded.result res]) = (vs, some res) := by
  induction vs with
  | nil => rfl
  | cons v vs ih => simp [processFnConsume, ih]

theorem processFnConsume_no_result {V R : Type} (ys : List (Yielded V R))
    (h : noResultYields ys = true) : (processFnConsume ys).2 = none := by
  induction ys with
  | nil => rfl
  | cons y ys ih =>
      cases y with
      | out v =>
          simp only [noResultYields, List.all_cons, Bool.and_eq_true] at h
          simpa [processFnConsume] using ih h.2
      | result r => simp [noResultYields, isResultItem] at h

theorem initiate_checkpoint_checkpointed {R : Type} (t : Tracker R)
    (s : CheckpointState R) : (initiate_checkpoint t s).checkpointed = true := by
  unfold initiate_checkpoint
  split <;> simp_all

theorem initiate_checkpoint_inv {R : Type} (t : Tracker R) (s : CheckpointState R)
    (h : s.checkpointed = s.residual_restriction.isSome) :
    (initiate_checkpoint t s).checkpointed =
      (initiate_checkpoint t s).residual_restriction.isSome := by
  unfold initiate_checkpoint
  split <;> simp_all

theorem sessionLoop_yields_outs {V R : Type} (t : Tracker R) (max : Option Nat)
    (items : List (Item V)) :
    ∀ (timer : Option Nat) (ck : CheckpointState R) (count : Nat) (contSeen : Bool),
      ∃ vs : List V,
        (sessionLoop t max items timer ck count contSeen).1 = vs.map Yielded.out := by
  induction items with
  | nil => intro timer ck count contSeen; exact ⟨[], rfl⟩
  | cons item rest ih =>
      intro timer ck count contSeen
      cases contSeen with
      | true => exact ⟨[], by simp [sessionLoop]⟩
      | false =>
          cases item with
          | continuation =>
              simp only [sessionLoop]
              obtain ⟨vs, hvs⟩ := ih (match timer with
                | some (n + 1) => some n
                | _ => none)
                (initiate_checkpoint t (if timer = some 0 then initiate_checkpoint t ck else ck))
                count true
              exact ⟨vs, by simp [hvs]⟩
          | output v =>
              simp only [sessionLoop, Bool.false_eq_true, if_false]
              obtain ⟨vs, hvs⟩ := ih _ _ (count + 1) false
              refine ⟨v :: vs, ?_⟩
              rw [List.map_cons]
              exact congrArg (List.cons (Yielded.out v)) hvs

theorem sessionLoop_inv {V R : Type} (t : Tracker R) (max : Option Nat)
    (items : List (Item V)) :
    ∀ (timer : Option Nat) (ck : CheckpointState R) (count : Nat) (contSeen : Bool),
      ck.checkpointed = ck.residual_restriction.isSome →
        (sessionLoop t max items timer ck count contSeen).2.2.checkpointed =
          (sessionLoop t max items timer ck count contSeen).2.2.residual_restriction.isSome := by
  induction items with
  | nil =>
      intro timer ck count contSeen h
      simp only [sessionLoop]
      split
      · exact initiate_checkpoint_inv t ck h
      · exact h
  | cons item rest ih =>
      intro timer ck count contSeen h
      have h1 : (if timer = some 0 then initiate_checkpoint t ck else ck).checkpointed =
          (if timer = some 0 then initiate_checkpoint t ck
            else ck).residual_restriction.isSome := by
        split
        · exact initiate_checkpoint_inv t ck h
        · exact h
      cases contSeen with
      | true => simpa [sessionLoop] using h1
      | false =>
          cases item with
          | continuation =>
              simp only [sessionLoop, Bool.false_eq_true, if_false]
              exact ih _ _ _ _ (initiate_checkpoint_inv t _ h1)
          | output v =>
              simp only [sessionLoop, Bool.false_eq_true, if_false]
              refine ih _ _ _ _ ?_
              split
              · exact initiate_checkpoint_inv t _ h1
              · exact h1

theorem sessionLoop_checkpointed_mono {V R : Type} (t : Tracker R) (max : Option Nat)
    (items : List (Item V)) :
    ∀ (timer : Option Nat) (ck : CheckpointState R) (count : Nat) (contSeen : Bool),
      ck.checkpointed = true →
        (sessionLoop t max items timer ck count contSeen).2.2.checkpointed = true := by
  induction items with
  | nil =>
      intro timer ck count contSeen h
      simp only [sessionLoop]
      split
      · exact initiate_checkpoint_checkpointed t ck
      · exact h
  | cons item rest ih =>
      intro timer ck count contSeen h
      have h1 : (if timer = some 0 then initiate_checkpoint t ck else ck).checkpointed =
          true := by
        split
        · exact initiate_checkpoint_checkpointed t ck
        · exact h
      cases contSeen with
      | true => simpa [sessionLoop] using h1
      | false =>
          cases item with
          | continuation =>
              simp only [sessionLoop, Bool.false_eq_true, if_false]
              exact ih _ _ _ _ (initiate_checkpoint_checkpointed t _)
          | output v =>
              simp only [sessionLoop, Bool.false_eq_true, if_false]
              refine ih _ _ _ _ ?_
              split
              · exact initiate_checkpoint_checkpointed t _
              · exact h1

theorem sessionLoop_cont_last {V R : Type} (t : Tracker R) (max : Option Nat)
    (vsPre : List V) :
    ∀ (timer : Option Nat) (ck : CheckpointState R) (count : Nat),
      (sessionLoop t max (vsPre.map Item.output ++ [Item.continuation])
          timer ck count false).1 = vsPre.map Yielded.out ∧
      (sessionLoop t max (vsPre.map Item.output ++ [Item.continuation])
          timer ck count false).2.1 = none ∧
      (sessionLoop t max (vsPre.map Item.output ++ [Item.continuation])
          timer ck count false).2.2.checkpointed = true := by
  induction vsPre with
  | nil =>
      intro timer ck count
      simp only [List.map_nil, List.nil_append, sessionLoop, Bool.false_eq_true,
        if_false]
      refine ⟨by trivial, by trivial, ?_⟩
      split
      · exact initiate_checkpoint_checkpointed t _
      · exact initiate_checkpoint_checkpointed t _
  | cons v vsPre ih =>
      intro timer ck count
      simp only [List.map_cons, List.cons_append, sessionLoop, Bool.false_eq_true,
        if_false]
      obtain ⟨h1, h2, h3⟩ := ih _ _ (count + 1)
      exact ⟨congrArg (List.cons (Yielded.out v)) h1, h2, h3⟩

theorem sessionLoop_cont_violation {V R : Type} (t : Tracker R) (max : Option Nat)
    (vsPre : List V) (x : Item V) (xs : List (Item V)) :
    ∀ (timer : Option Nat) (ck : CheckpointState R) (count : Nat),
      (sessionLoop t max (vsPre.map Item.output ++ Item.continuation :: x :: xs)
          timer ck count false).1 = vsPre.map Yielded.out ∧
      (sessionLoop t max (vsPre.map Item.output ++ Item.continuation :: x :: xs)
          timer ck count false).2.1 = some SessionError.continuationNotLast := by
  induction vsPre with
  | nil =>
      intro timer ck count
      simp only [List.map_nil, List.nil_append, sessionLoop, Bool.false_eq_true,
        if_false, Bool.true_eq_false, if_true]
      exact ⟨by trivial, by trivial⟩
  | cons v vsPre ih =>
      intro timer ck count
      simp only [List.map_cons, List.cons_append, sessionLoop, Bool.false_eq_true,
        if_false]
      obtain ⟨h1, h2⟩ := ih _ _ (count + 1)
      exact ⟨congrArg (List.cons (Yielded.out v)) h1, h2⟩

theorem sessionLoop_max_zero {V R : Type} (t : Tracker R) (vs : List V) :
    ∀ (ck : CheckpointState R) (count : Nat),
      sessionLoop t (some 0) (vs.map Item.output) none ck count false =
        (vs.map Yielded.out, none, ck) := by
  induction vs with
  | nil => intro ck count; simp [sessionLoop]
  | cons v vs ih => intro ck count; simp [sessionLoop, ih]

theorem invoke_loop_error_eq {V R : Type} (truthy : R → Bool) (max : Option Nat)
    (t : Tracker R) (timer : Option Nat) (items : List (Item V))
    (e : SessionError)
    (hL : (sessionLoop t max items timer CheckpointState.init 0 false).2.1 =
      some e) :
    invoke_process_element truthy max t timer items =
      { yields := (sessionLoop t max items timer CheckpointState.init 0 false).1
        error := some e
        ckState := (sessionLoop t max items timer CheckpointState.init 0 false).2.2
        checkDoneCalls := 0 } := by
  unfold invoke_process_element
  simp only [hL]

theorem invoke_check_done_failed_eq {V R : Type} (truthy : R → Bool)
    (max : Option Nat) (t : Tracker R) (timer : Option Nat)
    (items : List (Item V))
    (hL : (sessionLoop t max items timer CheckpointState.init 0 false).2.1 = none)
    (hok : t.checkDoneOk = false) :
    invoke_process_element truthy max t timer items =
      { yields := (sessionLoop t max items timer CheckpointState.init 0 false).1
        error := some SessionError.checkDoneFailed
        ckState := (sessionLoop t max items timer CheckpointState.init 0 false).2.2
        checkDoneCalls := 1 } := by
  unfold invoke_process_element
  simp only [hL, hok, Bool.false_eq_true, if_false]

theorem invoke_ok_eq {V R : Type} (truthy : R → Bool) (max : Option Nat)
    (t : Tracker R) (timer : Option Nat) (items : List (Item V))
    (hL : (sessionLoop t max items timer CheckpointState.init 0 false).2.1 = none)
    (hok : t.checkDoneOk = true) :
    invoke_process_element truthy max t timer items =
      { yields :=
          (sessionLoop t max items timer CheckpointState.init 0 false).1 ++
            [Yielded.result (resultOfCk truthy
              (sessionLoop t max items timer CheckpointState.init 0 false).2.2)]
        error := none
        ckState := (sessionLoop t max items timer CheckpointState.init 0 false).2.2
        checkDoneCalls := 1 } := by
  unfold invoke_process_element
  simp only [hL, hok, if_true]
  congr 2
  split
  · rename_i hcond
    rcases hres : (sessionLoop t max items timer
        CheckpointState.init 0 false).2.2.residual_restriction with _ | r0
    · rw [hres] at hcond; simp at hcond
    · rw [hres] at hcond
      simp only at hcond
      simp [resultOfCk, hres, hcond]
  · rename_i hcond
    rcases hres : (sessionLoop t max items timer
        CheckpointState.init 0 false).2.2.residual_restriction with _ | r0
    · rw [hres] at hcond
      simp [resultOfCk, hres]
    · rw [hres] at hcond
      simp only at hcond
      simp only [Bool.not_eq_true] at hcond
      simp [resultOfCk, hres, hcond]

theorem resultOfCk_residual_iff {R : Type} (truthy : R → Bool)
    (ck : CheckpointState R)
    (hinv : ck.checkpointed = ck.residual_restriction.isSome) :
    (resultOfCk truthy ck).residual_restriction ≠ none ↔
      (ck.checkpointed = true ∧
        ∃ r0, ck.residual_restriction = some r0 ∧ truthy r0 = true) := by
  rcases hres : ck.residual_restriction with _ | r0
  · rw [hres] at hinv
    simp only [Option.isSome_none] at hinv
    simp [resultOfCk, hres, hinv]
  · rw [hres] at hinv
    simp only [Option.isSome_some] at hinv
    rcases htr : truthy r0 with _ | _ <;>
      simp [resultOfCk, hres, htr, hinv]

/-- C1: the source intends `initiate_checkpoint` to perform the
tracker's `checkpoint()` exactly once — first caller wins — but the
one-shot flag is only read inside the `with self._checkpoint_lock` block
(source lines 296–298) while `tracker.checkpoint()` and the flag
assignment run after the lock is released (lines 299–300). Under
non-overlapping calls the first caller indeed wins (first conjunct: a
schedule that runs one call to completion before the other starts
performs one `checkpoint()`), but when the duration-alarm thread
overlaps the main iteration both calls can pass the flag check before
either sets the flag, and `tracker.checkpoint()` runs twice (second
conjunct). -/
theorem initiate_checkpoint_race_two_checkpoints :
    (ckRun (⟨[3], true⟩ : Tracker (List Nat)) [true, true, true, false]
        TwoCalls.init).shared.trackerCheckpointCalls = 1 ∧
    (ckRun (⟨[3], true⟩ : Tracker (List Nat)) [true, false, true, false, true, false]
        TwoCalls.init).shared.trackerCheckpointCalls = 2 ∧
    (ckRun (⟨[3], true⟩ : Tracker (List Nat)) [true, false, true, false, true, false]
        TwoCalls.init).pc1 = CkPC.done ∧
    (ckRun (⟨[3], true⟩ : Tracker (List Nat)) [true, false, true, false, true, false]
        TwoCalls.init).pc2 = CkPC.done := by
  decide

/-- C2, counterexample: a session in which a checkpoint occurs (the
output-count limit fires and `tracker.checkpoint()` runs) but the
captured residual is a falsy value (the empty list), so the terminal
`Result` carries no residual even though a checkpoint occurred — against
the claim that `residual_restriction` is set whenever a checkpoint
occurred during the session. -/
theorem invoke_checkpointed_but_result_residual_empty :
    (invoke_process_element listTruthy (some 1) ⟨[], true⟩ none
        [Item.output (42 : Nat)]).ckState.checkpointed = true ∧
    (invoke_process_element listTruthy (some 1) ⟨[], true⟩ none
        [Item.output (42 : Nat)]).ckState.trackerCheckpointCalls = 1 ∧
    (invoke_process_element listTruthy (some 1) ⟨[], true⟩ none
        [Item.output (42 : Nat)]).yields =
      [Yielded.out 42,
        Yielded.result
          { residual_restriction := none
            process_continuation := none
            future_output_watermark := none }] := by
  decide

/-- C2 (amended): every session that completes without an exception
yields exactly one `Result`, always last; its `residual_restriction` is
set iff a checkpoint occurred during the session and the captured
residual is truthy (non-empty); `ProcessFn.process` re-yields exactly
the preceding outputs and consumes the `Result` without re-yielding it;
and on any yield sequence carrying no `Result` the consumption loop
finds none, which fires the `assert sdf_result` at source line 189. -/
theorem invoke_result_unique_last {V R : Type} (truthy : R → Bool)
    (max : Option Nat) (t : Tracker R) (timer : Option Nat)
    (items : List (Item V)) (o : SessionOutcome V R)
    (ho : invoke_process_element truthy max t timer items = o)
    (herr : o.error = none) :
    o.yields = o.outItems.map Yielded.out ++
      [Yielded.result (sessionResult truthy o)] ∧
    ((sessionResult truthy o).residual_restriction ≠ none ↔
      (o.ckState.checkpointed = true ∧
        ∃ r0, o.ckState.residual_restriction = some r0 ∧ truthy r0 = true)) ∧
    processFnConsume o.yields = (o.outItems, some (sessionResult truthy o)) ∧
    (∀ ys : List (Yielded V R), noResultYields ys = true →
      (processFnConsume ys).2 = none) := by
  subst ho
  rcases hL : (sessionLoop t max items timer CheckpointState.init 0 false).2.1 with
    _ | e
  · rcases hok : t.checkDoneOk with _ | _
    · rw [invoke_check_done_failed_eq truthy max t timer items hL hok] at herr
      exact absurd herr (by simp)
    · rw [invoke_ok_eq truthy max t timer items hL hok] at herr ⊢
      obtain ⟨vs, hvs⟩ :=
        sessionLoop_yields_outs t max items timer CheckpointState.init 0 false
      have hinv :=
        sessionLoop_inv t max items timer CheckpointState.init 0 false rfl
      refine ⟨?_, ?_, ?_, fun ys h => processFnConsume_no_result ys h⟩
      · simp only [SessionOutcome.outItems, sessionResult, hvs,
          outValues_outs_result]
      · simpa only [sessionResult] using
          resultOfCk_residual_iff truthy _ hinv
      · simp only [SessionOutcome.outItems, sessionResult, hvs,
          outValues_outs_result]
        exact processFnConsume_outs_result vs _
  · rw [invoke_loop_error_eq truthy max t timer items e hL] at herr
    exact absurd herr (by simp)

/-- C2, witness: the sample session (one output, then a continuation
marker, residual `[7]` captured): its yields are exactly the re-yielded
output followed by the one terminal `Result`, that `Result` carries a
residual, and a yield list with no `Result` makes the consumption loop
return none. -/
theorem invoke_result_unique_last_witness :
    sampleSession.yields = sampleSession.outItems.map Yielded.out ++
      [Yielded.result (sessionResult listTruthy sampleSession)] ∧
    (sessionResult listTruthy sampleSession).residual_restriction ≠ none ∧
    (processFnConsume ([Yielded.out (1 : Nat)] :
      List (Yielded Nat (List Nat)))).2 = none :=
  have H := invoke_result_unique_last listTruthy none ⟨[7], true⟩ none
    [Item.output (1 : Nat), Item.continuation] sampleSession rfl (by decide)
  ⟨H.1, H.2.1.mpr ⟨by decide, [7], by decide, rfl⟩,
    H.2.2.2 [Yielded.out 1] rfl⟩

/-- C3: after the user output sequence is exhausted (the re-yield loop
completes without an assertion failure), `tracker.check_done()` is
called exactly once, unconditionally — the statement holds for every
session, whether or not a checkpoint occurred — and when `check_done()`
fails, the failure terminates the session as an error with no `Result`
among the yields. -/
theorem check_done_unconditional {V R : Type} (truthy : R → Bool)
    (max : Option Nat) (t : Tracker R) (timer : Option Nat)
    (items : List (Item V))
    (h : (sessionLoop t max items timer CheckpointState.init 0 false).2.1 = none) :
    (invoke_process_element truthy max t timer items).checkDoneCalls = 1 ∧
    (t.checkDoneOk = false →
      (invoke_process_element truthy max t timer items).error =
          some SessionError.checkDoneFailed ∧
        noResultYields (invoke_process_element truthy max t timer items).yields =
          true) := by
  obtain ⟨vs, hvs⟩ :=
    sessionLoop_yields_outs t max items timer CheckpointState.init 0 false
  rcases hok : t.checkDoneOk with _ | _
  · rw [invoke_check_done_failed_eq truthy max t timer items h hok]
    refine ⟨rfl, fun _ => ⟨rfl, ?_⟩⟩
    have h4 := noResultYields_map_out (R := R) vs
    rw [← hvs] at h4
    exact h4
  · rw [invoke_ok_eq truthy max t timer items h hok]
    exact ⟨rfl, fun hfalse => absurd hfalse (by simp)⟩

/-- C3, witness: a session of two plain outputs whose tracker rejects
`check_done()`; a checkpoint occurred during it (output-count limit 1),
and still `check_done()` is called once, fails, and no `Result` is
yielded. -/
theorem check_done_unconditional_witness :
    (invoke_process_element listTruthy (some 1) ⟨[1], false⟩ none
        [Item.output (5 : Nat), Item.output 6]).checkDoneCalls = 1 ∧
    ((invoke_process_element listTruthy (some 1) ⟨[1], false⟩ none
        [Item.output (5 : Nat), Item.output 6]).error =
          some SessionError.checkDoneFailed ∧
      noResultYields (invoke_process_element listTruthy (some 1) ⟨[1], false⟩ none
        [Item.output (5 : Nat), Item.output 6]).yields = true) :=
  ⟨(check_done_unconditional listTruthy (some 1) ⟨[1], false⟩ none
      [Item.output (5 : Nat), Item.output 6] (by decide)).1,
    (check_done_unconditional listTruthy (some 1) ⟨[1], false⟩ none
      [Item.output (5 : Nat), Item.output 6] (by decide)).2 rfl⟩

/-- C5: a continuation marker yielded by the user routine must be final.
First part: when the marker is the last item, the session completes its
loop, the marker triggers `initiate_checkpoint` (the final state is
checkpointed), and the marker is not re-yielded (the re-yielded outputs
are exactly the preceding plain outputs; the yield type has no marker
constructor at all). Second part: any item after a continuation marker
— plain output or a second marker — fails the
`assert not process_continuation` at source line 316: the session ends
in an error, only the outputs before the marker were yielded, no
`Result` appears, and `check_done` is never reached. -/
theorem continuation_marker_last {V R : Type} (truthy : R → Bool)
    (max : Option Nat) (t : Tracker R) (timer : Option Nat) (vsPre : List V)
    (x : Item V) (xs : List (Item V)) :
    ((invoke_process_element truthy max t timer
        (vsPre.map Item.output ++ [Item.continuation])).ckState.checkpointed =
          true ∧
      (invoke_process_element truthy max t timer
        (vsPre.map Item.output ++ [Item.continuation])).outItems = vsPre) ∧
    ((invoke_process_element truthy max t timer
        (vsPre.map Item.output ++ Item.continuation :: x :: xs)).error =
          some SessionError.continuationNotLast ∧
      (invoke_process_element truthy max t timer
        (vsPre.map Item.output ++ Item.continuation :: x :: xs)).yields =
          vsPre.map Yielded.out ∧
      (invoke_process_element truthy max t timer
        (vsPre.map Item.output ++ Item.continuation :: x :: xs)).checkDoneCalls =
          0) := by
  constructor
  · obtain ⟨h1, h2, h3⟩ :=
      sessionLoop_cont_last t max vsPre timer CheckpointState.init 0
    rcases hok : t.checkDoneOk with _ | _
    · rw [invoke_check_done_failed_eq truthy max t timer _ h2 hok]
      refine ⟨h3, ?_⟩
      have h4 := outValues_map_out (R := R) vsPre
      rw [← h1] at h4
      exact h4
    · rw [invoke_ok_eq truthy max t timer _ h2 hok]
      refine ⟨h3, ?_⟩
      have h4 := outValues_outs_result vsPre (resultOfCk truthy
        (sessionLoop t max (vsPre.map Item.output ++ [Item.continuation])
          timer CheckpointState.init 0 false).2.2)
      rw [← h1] at h4
      exact h4
  · obtain ⟨h1, h2⟩ :=
      sessionLoop_cont_violation t max vsPre x xs timer CheckpointState.init 0
    rw [invoke_loop_error_eq truthy max t timer _ _ h2]
    exact ⟨rfl, h1, rfl⟩

/-- C9: with `max_num_outputs = 0` — not only `None` — the limit check
`if self._max_num_outputs and output_count >= self._max_num_outputs`
(source line 333) is falsy, so no output-count checkpoint is ever
initiated: the tracker's `checkpoint()` is never called, the final state
is not checkpointed, and every one of the session's outputs is
re-yielded, however many there are, followed by the empty terminal
`Result` when `check_done()` passes. -/
theorem max_num_outputs_zero_no_checkpoint {V R : Type} (truthy : R → Bool)
    (t : Tracker R) (vs : List V) :
    (invoke_process_element truthy (some 0) t none
        (vs.map Item.output)).ckState.trackerCheckpointCalls = 0 ∧
    (invoke_process_element truthy (some 0) t none
        (vs.map Item.output)).ckState.checkpointed = false ∧
    (invoke_process_element truthy (some 0) t none
        (vs.map Item.output)).outItems = vs ∧
    (invoke_process_element truthy (some 0) t none
        (vs.map Item.output)).yields =
      vs.map Yielded.out ++
        (if t.checkDoneOk then
          [Yielded.result
            { residual_restriction := none
              process_continuation := none
              future_output_watermark := none }]
        else []) := by
  have hL := sessionLoop_max_zero t vs CheckpointState.init 0
  rcases hok : t.checkDoneOk with _ | _
  · rw [invoke_check_done_failed_eq truthy (some 0) t none (vs.map Item.output)
      (by rw [hL]) hok, hL]
    exact ⟨rfl, rfl, outValues_map_out vs, by simp [hok]⟩
  · rw [invoke_ok_eq truthy (some 0) t none (vs.map Item.output)
      (by rw [hL]) hok, hL]
    refine ⟨rfl, rfl, outValues_outs_result vs _, ?_⟩
    simp [hok, resultOfCk, CheckpointState.init]

/-- C4: when a `ProcessFn.process` call completes, the post-session
state transition (source lines 193–215) is determined by the terminal
`Result` the session produced: an empty (falsy) `residual_restriction`
clears the `element` and `restriction` slots and records the
positive-infinity watermark hold with no new timer; a non-empty residual
persists the session's element and the residual restriction, records the
negative-infinity watermark hold, and arms a re-invocation timer. -/
theorem processFn_post_session_state {K E V R W : Type} (truthy : R → Bool)
    (max : Option Nat) (t : Tracker R) (timer : Option Nat)
    (items : List (Item V)) (input : WorkInput K E R W) (st : KeyedState E R)
    (ts : Int) (w : W) (outs : List V) (st1 : KeyedState E R)
    (fr : FrontResult E R W) (res : Result R)
    (h : processFn truthy max t timer items input st ts w =
      Except.ok (outs, st1))
    (hfr : processFnFront input st ts w = Except.ok fr)
    (hres : (processFnConsume
        (invoke_process_element truthy max t timer items).yields).2 = some res) :
    (residualFalsy truthy res = true →
      st1.element = none ∧ st1.restriction = none ∧
        st1.watermark_hold = some Watermark.posInf ∧ st1.timers = st.timers) ∧
    (residualFalsy truthy res = false →
      st1.element = some fr.element ∧
        st1.restriction = res.residual_restriction ∧
        st1.watermark_hold = some Watermark.negInf ∧
        st1.timers = st.timers ++ [Watermark.negInf]) := by
  unfold processFn at h
  simp only [hfr] at h
  rcases herr : (invoke_process_element truthy max t timer items).error with
    _ | e
  · simp only [herr] at h
    simp only [hres] at h
    simp only [Except.ok.injEq, Prod.mk.injEq] at h
    obtain ⟨-, h6⟩ := h
    subst h6
    constructor
    · intro hf
      simp [processFnPostSession, hf]
    · intro hf
      simp [processFnPostSession, hf]
  · simp only [herr] at h
    exact absurd h (by simp)

/-- C4, witness: a seed call on element 7 with restriction `[1, 2]`,
one output, output-count limit 1, the checkpoint capturing residual
`[3]`: the element and the residual are persisted, the watermark hold is
negative infinity, and a timer is armed. -/
theorem processFn_post_session_state_witness :
    ({ element := some 7, restriction := some [3],
       watermark_hold := some Watermark.negInf,
       timers := [Watermark.negInf] } : KeyedState Nat (List Nat)).element =
        some 7 ∧
    ({ element := some 7, restriction := some [3],
       watermark_hold := some Watermark.negInf,
       timers := [Watermark.negInf] } : KeyedState Nat (List Nat)).restriction =
        some [3] ∧
    ({ element := some 7, restriction := some [3],
       watermark_hold := some Watermark.negInf,
       timers := [Watermark.negInf] } : KeyedState Nat (List Nat)).watermark_hold =
        some Watermark.negInf ∧
    ({ element := some 7, restriction := some [3],
       watermark_hold := some Watermark.negInf,
       timers := [Watermark.negInf] } : KeyedState Nat (List Nat)).timers =
        (KeyedState.empty : KeyedState Nat (List Nat)).timers ++
          [Watermark.negInf] :=
  (processFn_post_session_state listTruthy (some 1) ⟨[3], true⟩ none
    [Item.output (5 : Nat)]
    (WorkInput.keyedValues (0 : Nat) [InValue.ear (7 : Nat) [1, 2]])
    KeyedState.empty 100 (1 : Nat) [5]
    { element := some 7, restriction := some [3],
      watermark_hold := some Watermark.negInf, timers := [Watermark.negInf] }
    ⟨7, some [1, 2], ⟨7, 100, [1]⟩, true⟩ ⟨some [3], none, none⟩
    rfl rfl rfl).2 (by decide)

/-- C6: `ProcessFn.process` classifies a call as a seed call exactly when
the per-key-per-window element state slot is empty (`is_seed_call = not
element_state`, source line 153); on a resumption it reads the element
and the restriction back from state (lines 156–157); a timer firing with
no stored element and a seed call whose single value is not an
`ElementAndRestriction` both die at the `assert isinstance(value,
ElementAndRestriction)` of line 162. -/
theorem processFnFront_classification {K E R W : Type} :
    (∀ (input : WorkInput K E R W) (st : KeyedState E R) (ts : Int) (w : W)
        (fr : FrontResult E R W),
      processFnFront input st ts w = Except.ok fr →
        ((fr.is_seed_call = true ↔ st.element = none) ∧
          (∀ e, st.element = some e →
            fr.element = e ∧ fr.restriction = st.restriction))) ∧
    (∀ (key : K) (st : KeyedState E R) (ts : Int) (w : W),
      st.element = none →
        processFnFront (WorkInput.keyedWorkItem key) st ts w =
          Except.error FrontError.seedValueNotEAR) ∧
    (∀ (key : K) (e : E) (vts : Int) (vws : List W) (st : KeyedState E R)
        (ts : Int) (w : W),
      st.element = none →
        processFnFront (WorkInput.keyedValues key [InValue.windowed e vts vws])
          st ts w = Except.error FrontError.seedValueNotEAR) := by
  refine ⟨?_, ?_, ?_⟩
  · intro input st ts w fr h
    unfold processFnFront at h
    rcases hval : extractValue input with e0 | value?
    · simp only [hval] at h
      exact absurd h (by simp)
    · simp only [hval] at h
      rcases hst : st.element with _ | e
      · simp only [hst] at h
        rcases value? with _ | value
        · exact absurd h (by simp)
        · rcases hep : earParts value with _ | p
          · simp only [hep] at h
            exact absurd h (by simp)
          · simp only [hep, Except.ok.injEq] at h
            subst h
            refine ⟨by simp, ?_⟩
            intro e1 he1
            exact absurd he1 (by simp)
      · simp only [hst, Except.ok.injEq] at h
        subst h
        refine ⟨by simp, ?_⟩
        intro e1 he1
        obtain rfl : e = e1 := by injection he1
        exact ⟨rfl, rfl⟩
  · intro key st ts w hst
    unfold processFnFront
    simp [extractValue, hst]
  · intro key e vts vws st ts w hst
    unfold processFnFront
    simp [extractValue, hst, earParts]

/-- C6, witness: a resumption call (element slot holds 7) reads element
and restriction back from state and is not a seed call; a timer firing
against empty state and a seed call carrying a `WindowedValue` instead of
an `ElementAndRestriction` both fail the assertion. -/
theorem processFnFront_classification_witness :
    ((((⟨7, some [4], ⟨7, 100, [1]⟩, false⟩ :
          FrontResult Nat (List Nat) Nat).is_seed_call = true) ↔
        (({ element := some 7, restriction := some [4],
            watermark_hold := none, timers := [] } :
          KeyedState Nat (List Nat)).element = none)) ∧
      ((⟨7, some [4], ⟨7, 100, [1]⟩, false⟩ :
          FrontResult Nat (List Nat) Nat).element = 7 ∧
        (⟨7, some [4], ⟨7, 100, [1]⟩, false⟩ :
          FrontResult Nat (List Nat) Nat).restriction =
          ({ element := some 7, restriction := some [4],
             watermark_hold := none, timers := [] } :
            KeyedState Nat (List Nat)).restriction)) ∧
    processFnFront (WorkInput.keyedWorkItem (0 : Nat))
      (KeyedState.empty : KeyedState Nat (List Nat)) 100 (1 : Nat) =
        Except.error FrontError.seedValueNotEAR ∧
    processFnFront
      (WorkInput.keyedValues (0 : Nat) [InValue.windowed (5 : Nat) 3 [2]])
      (KeyedState.empty : KeyedState Nat (List Nat)) 100 (1 : Nat) =
        Except.error FrontError.seedValueNotEAR :=
  have H1 := (processFnFront_classification (K := Nat) (E := Nat)
    (R := List Nat) (W := Nat)).1
    (WorkInput.keyedValues 0 [InValue.ear 9 [9]])
    { element := some 7, restriction := some [4],
      watermark_hold := none, timers := [] } 100 1
    ⟨7, some [4], ⟨7, 100, [1]⟩, false⟩ rfl
  ⟨⟨H1.1, H1.2 7 rfl⟩,
    (processFnFront_classification (K := Nat) (E := Nat) (R := List Nat)
      (W := Nat)).2.1 0 KeyedState.empty 100 1 rfl,
    (processFnFront_classification (K := Nat) (E := Nat) (R := List Nat)
      (W := Nat)).2.2 0 5 3 [2] KeyedState.empty 100 1 rfl⟩

/-- C10: on every seed call that passes the `assert isinstance(value,
ElementAndRestriction)`, the `isinstance(value, WindowedValue)` branch
at source line 167 is unreachable — an `ElementAndRestriction` is never
a `WindowedValue` — so the windowed element is always built from the
invocation's timestamp and window parameters:
`WindowedValue(element, timestamp, [window])` (line 171). -/
theorem seed_call_windowed_element {K E R W : Type} (input : WorkInput K E R W)
    (st : KeyedState E R) (ts : Int) (w : W) (fr : FrontResult E R W)
    (h : processFnFront input st ts w = Except.ok fr)
    (hseed : fr.is_seed_call = true) :
    fr.windowed_element =
      { value := fr.element, timestamp := ts, windows := [w] } := by
  unfold processFnFront at h
  rcases hval : extractValue input with e0 | value?
  · simp only [hval] at h
    exact absurd h (by simp)
  · simp only [hval] at h
    rcases hst : st.element with _ | e
    · simp only [hst] at h
      rcases value? with _ | value
      · exact absurd h (by simp)
      · dsimp only at h
        rcases value with ⟨e1, r1⟩ | ⟨e1, vts, vws⟩
        · simp only [earParts, Except.ok.injEq] at h
          subst h
          rfl
        · simp only [earParts] at h
          exact absurd h (by simp)
    · simp only [hst, Except.ok.injEq] at h
      subst h
      exact absurd hseed (by simp)

/-- C10, witness: a seed call with `ElementAndRestriction(7, [1, 2])` at
timestamp 100 in window 1 builds `WindowedValue(7, 100, [1])`. -/
theorem seed_call_windowed_element_witness :
    (⟨7, some [1, 2], ⟨7, 100, [1]⟩, true⟩ :
        FrontResult Nat (List Nat) Nat).windowed_element =
      { value := (⟨7, some [1, 2], ⟨7, 100, [1]⟩, true⟩ :
          FrontResult Nat (List Nat) Nat).element,
        timestamp := 100, windows := [1] } :=
  seed_call_windowed_element
    (WorkInput.keyedValues (0 : Nat) [InValue.ear (7 : Nat) [1, 2]])
    KeyedState.empty 100 (1 : Nat) ⟨7, some [1, 2], ⟨7, 100, [1]⟩, true⟩
    rfl rfl

end SdfDirectRunner

namespace SlowStream

theorem bytesBE_length : ∀ (w v : Nat), (bytesBE w v).length = w := by
  intro w
  induction w with
  | zero => intro v; rfl
  | succ n ih => intro v; simp [bytesBE, ih]

theorem readBEAux_bytesBE : ∀ (w v acc : Nat) (rest : List Nat),
    v < 256 ^ w →
    readBEAux w (bytesBE w v ++ rest) acc = some (acc * 256 ^ w + v, rest) := by
  intro w
  induction w with
  | zero =>
      intro v acc rest hv
      have h1 : (256 : Nat) ^ 0 = 1 := pow_zero 256
      rw [h1] at hv
      obtain rfl : v = 0 := by omega
      simp [bytesBE, readBEAux]
  | succ n ih =>
      intro v acc rest hv
      simp only [bytesBE, List.cons_append, List.append_eq, readBEAux]
      rw [ih (v % 256 ^ n) (acc * 256 + v / 256 ^ n) rest
        (Nat.mod_lt _ (by positivity))]
      have hdm : 256 ^ n * (v / 256 ^ n) + v % 256 ^ n = v :=
        Nat.div_add_mod v (256 ^ n)
      have harith : (acc * 256 + v / 256 ^ n) * 256 ^ n + v % 256 ^ n =
          acc * 256 ^ (n + 1) + v := by
        calc (acc * 256 + v / 256 ^ n) * 256 ^ n + v % 256 ^ n
            = acc * (256 ^ n * 256) + (256 ^ n * (v / 256 ^ n) + v % 256 ^ n) := by
              ring
          _ = acc * 256 ^ (n + 1) + v := by rw [hdm, pow_succ]
      rw [harith]

theorem varDecodeAux_varEncodeAux : ∀ (fuel v shift acc : Nat),
    v < 128 ^ fuel → 0 < fuel → v * 2 ^ shift < 2 ^ 64 → shift ≤ 63 →
    varDecodeAux fuel (varEncodeAux fuel v) shift acc =
      some (acc + v * 2 ^ shift, []) := by
  intro fuel
  induction fuel with
  | zero => intro v shift acc _ h0 _ _; omega
  | succ n ih =>
      intro v shift acc hfuel _ hv hs
      by_cases h0 : v / 128 = 0
      · have hv128 : v < 128 := by omega
        have hm : v % 128 = v := by omega
        have hsmall : 63 ≤ shift → v ≤ 1 := by
          intro h63
          obtain rfl : shift = 63 := by omega
          by_contra hgt
          have hp1 : (2 : Nat) * 2 ^ 63 ≤ v * 2 ^ 63 :=
            Nat.mul_le_mul_right _ (by omega)
          have hp2 : (2 : Nat) * 2 ^ 63 = 2 ^ 64 := by norm_num
          omega
        have hcond : ¬(64 ≤ shift ∨ (63 ≤ shift ∧ 1 < v % 128 % 128)) := by
          rintro (h64 | ⟨h63, h1⟩)
          · omega
          · have := hsmall h63
            omega
        simp only [varEncodeAux, h0, if_pos]
        simp only [varDecodeAux]
        rw [if_neg hcond]
        have hmm : v % 128 % 128 = v := by omega
        rw [hmm]
        rw [if_pos (by omega : v % 128 < 128)]
      · have hrest : 0 < v / 128 := Nat.pos_of_ne_zero h0
        have hv128 : 128 ≤ v := by omega
        have hsh : shift + 7 ≤ 63 := by
          by_contra hcon
          have h1 : (2 : Nat) ^ 57 ≤ 2 ^ shift :=
            Nat.pow_le_pow_right (by omega) (by omega)
          have h2 : 128 * 2 ^ 57 ≤ v * 2 ^ shift := Nat.mul_le_mul hv128 h1
          have h3 : (128 : Nat) * 2 ^ 57 = 2 ^ 64 := by norm_num
          omega
        have hmod : (v % 128 + 128) % 128 = v % 128 := by omega
        have hcond : ¬(64 ≤ shift ∨ (63 ≤ shift ∧ 1 < (v % 128 + 128) % 128)) := by
          rintro (h64 | ⟨h63, -⟩) <;> omega
        have hfn : v / 128 < 128 ^ n := by
          rw [Nat.div_lt_iff_lt_mul (by omega : 0 < 128)]
          calc v < 128 ^ (n + 1) := hfuel
            _ = 128 ^ n * 128 := pow_succ 128 n
        have hpn : 0 < n := by
          rcases Nat.eq_zero_or_pos n with rfl | h
          · rw [pow_zero] at hfn; omega
          · exact h
        have hvn : (v / 128) * 2 ^ (shift + 7) < 2 ^ 64 := by
          have hp : (2 : Nat) ^ (shift + 7) = 2 ^ shift * 128 := by
            rw [pow_add]; norm_num
          have hle : v / 128 * 128 ≤ v := Nat.div_mul_le_self v 128
          calc (v / 128) * 2 ^ (shift + 7) = (v / 128 * 128) * 2 ^ shift := by
                rw [hp]; ring
            _ ≤ v * 2 ^ shift := Nat.mul_le_mul_right _ hle
            _ < 2 ^ 64 := hv
        simp only [varEncodeAux, if_neg h0]
        simp only [varDecodeAux]
        rw [if_neg hcond]
        rw [if_neg (by omega : ¬(v % 128 + 128 < 128))]
        rw [hmod]
        rw [ih (v / 128) (shift + 7) (acc + v % 128 * 2 ^ shift) hfn hpn hvn hsh]
        have hdm : 128 * (v / 128) + v % 128 = v := Nat.div_add_mod v 128
        have harith : acc + v % 128 * 2 ^ shift + v / 128 * 2 ^ (shift + 7) =
            acc + v * 2 ^ shift := by
          have hp : (2 : Nat) ^ (shift + 7) = 2 ^ shift * 128 := by
            rw [pow_add]; norm_num
          calc acc + v % 128 * 2 ^ shift + v / 128 * 2 ^ (shift + 7)
              = acc + (128 * (v / 128) + v % 128) * 2 ^ shift := by rw [hp]; ring
            _ = acc + v * 2 ^ shift := by rw [hdm]
        rw [harith]

theorem read_write_var_int64 (v : Int) (hl : -(2 : Int) ^ 63 ≤ v)
    (hu : v < 2 ^ 63) : read_var_int64 (write_var_int64 v) = some (v, []) := by
  unfold write_var_int64 read_var_int64
  have hp63 : ((2 : Int) ^ 63) = 9223372036854775808 := by norm_num
  have hp64 : ((2 : Int) ^ 64) = 18446744073709551616 := by norm_num
  rw [hp63] at hu hl
  rw [hp64]
  have hn1 : (v % 18446744073709551616).toNat < 2 ^ 64 := by
    have : (2 : Nat) ^ 64 = 18446744073709551616 := by norm_num
    omega
  have hn2 : (v % 18446744073709551616).toNat < 128 ^ 10 := by
    have : (2 : Nat) ^ 64 < 128 ^ 10 := by norm_num
    omega
  rw [varDecodeAux_varEncodeAux 10 _ 0 0 hn2 (by omega)
    (by rw [pow_zero, Nat.mul_one]; exact hn1) (by omega)]
  simp only [pow_zero, Nat.mul_one, Nat.zero_add]
  by_cases hneg : 0 ≤ v
  · rw [if_neg (by omega : ¬2 ^ 63 ≤ (v % 18446744073709551616).toNat)]
    simp only [Option.some.injEq, Prod.mk.injEq]
    exact ⟨by omega, by trivial⟩
  · rw [if_pos (by omega : 2 ^ 63 ≤ (v % 18446744073709551616).toNat)]
    simp only [Option.some.injEq, Prod.mk.injEq]
    refine ⟨?_, by trivial⟩
    have : ((2 : Int) ^ 64) = 18446744073709551616 := hp64
    omega

theorem read_write_bigendian_uint64 (u : Nat) (hu : u < 2 ^ 64) :
    read_bigendian_uint64 (write_bigendian_uint64 u) = some (u, []) := by
  unfold write_bigendian_uint64 read_bigendian_uint64
  rw [Nat.mod_eq_of_lt hu]
  have h8 := readBEAux_bytesBE 8 u 0 []
    (by have : (256 : Nat) ^ 8 = 2 ^ 64 := by norm_num
        omega)
  rw [List.append_nil] at h8
  rw [h8]
  norm_num

theorem read_write_bigendian_double (pattern : Nat) (hp : pattern < 2 ^ 64) :
    read_bigendian_double (write_bigendian_double pattern) =
      some (pattern, []) := by
  unfold write_bigendian_double read_bigendian_double
  rw [Nat.mod_eq_of_lt hp]
  have h8 := readBEAux_bytesBE 8 pattern 0 []
    (by have : (256 : Nat) ^ 8 = 2 ^ 64 := by norm_num
        omega)
  rw [List.append_nil] at h8
  rw [h8]
  norm_num

theorem read_write_bigendian_int64 (v : Int) (hl : -(2 : Int) ^ 63 ≤ v)
    (hu : v < 2 ^ 63) :
    read_bigendian_int64 (write_bigendian_int64 v) = some (v, []) := by
  unfold write_bigendian_int64 read_bigendian_int64
  have hp63 : ((2 : Int) ^ 63) = 9223372036854775808 := by norm_num
  have hp64 : ((2 : Int) ^ 64) = 18446744073709551616 := by norm_num
  rw [hp63] at hu hl
  rw [hp64]
  have h8 := readBEAux_bytesBE 8 (v % 18446744073709551616).toNat 0 []
    (by have : (256 : Nat) ^ 8 = 18446744073709551616 := by norm_num
        omega)
  rw [List.append_nil] at h8
  rw [h8]
  simp only [Nat.zero_mul, Nat.zero_add, Option.some.injEq, Prod.mk.injEq]
  refine ⟨?_, by trivial⟩
  unfold toSigned
  split
  · rename_i hc
    have hc2 : (v % 18446744073709551616).toNat < 2 ^ 63 := by
      have : (2 : Nat) ^ (64 - 1) = 2 ^ 63 := by norm_num
      omega
    have : (2 : Nat) ^ 63 = 9223372036854775808 := by norm_num
    omega
  · rename_i hc
    have : (2 : Nat) ^ (64 - 1) = 9223372036854775808 := by norm_num
    have h2 : (2 : Int) ^ 64 = 18446744073709551616 := hp64
    omega

theorem read_write_bigendian_uint32 (u : Nat) (hu : u < 2 ^ 32) :
    read_bigendian_uint32 (write_bigendian_uint32 u) = some (u, []) := by
  unfold write_bigendian_uint32 read_bigendian_uint32
  rw [Nat.mod_eq_of_lt hu]
  have h4 := readBEAux_bytesBE 4 u 0 []
    (by have : (256 : Nat) ^ 4 = 2 ^ 32 := by norm_num
        omega)
  rw [List.append_nil] at h4
  rw [h4]
  norm_num

theorem read_write_bigendian_int32 (v : Int) (hl : -(2 : Int) ^ 31 ≤ v)
    (hu : v < 2 ^ 31) :
    read_bigendian_int32 (write_bigendian_int32 v) = some (v, []) := by
  unfold write_bigendian_int32 read_bigendian_int32
  have hp31 : ((2 : Int) ^ 31) = 2147483648 := by norm_num
  have hp32 : ((2 : Int) ^ 32) = 4294967296 := by norm_num
  rw [hp31] at hu hl
  rw [hp32]
  have h4 := readBEAux_bytesBE 4 (v % 4294967296).toNat 0 []
    (by have : (256 : Nat) ^ 4 = 4294967296 := by norm_num
        omega)
  rw [List.append_nil] at h4
  rw [h4]
  simp only [Nat.zero_mul, Nat.zero_add, Option.some.injEq, Prod.mk.injEq]
  refine ⟨?_, by trivial⟩
  unfold toSigned
  split
  · rename_i hc
    have : (2 : Nat) ^ (32 - 1) = 2147483648 := by norm_num
    omega
  · rename_i hc
    have : (2 : Nat) ^ (32 - 1) = 2147483648 := by norm_num
    have h2 : (2 : Int) ^ 32 = 4294967296 := hp32
    omega

end SlowStream

namespace SlowStream

/-- C7: decode-of-encode is the identity for each numeric primitive of
the stream codec: the varint for every signed 64-bit integer including
both boundaries and negatives, the fixed-width big-endian codecs for
every signed and unsigned 32- and 64-bit integer, and the big-endian
double for every 64-bit IEEE-754 pattern (which covers `+inf`,
the pattern `0x7FF0000000000000`). -/
theorem stream_codec_roundtrip (v64 : Int) (h64l : -(2 : Int) ^ 63 ≤ v64)
    (h64u : v64 < 2 ^ 63) (u64 : Nat) (hu64 : u64 < 2 ^ 64)
    (v32 : Int) (h32l : -(2 : Int) ^ 31 ≤ v32) (h32u : v32 < 2 ^ 31)
    (u32 : Nat) (hu32 : u32 < 2 ^ 32) (pattern : Nat)
    (hpat : pattern < 2 ^ 64) :
    read_var_int64 (write_var_int64 v64) = some (v64, []) ∧
    read_bigendian_int64 (write_bigendian_int64 v64) = some (v64, []) ∧
    read_bigendian_uint64 (write_bigendian_uint64 u64) = some (u64, []) ∧
    read_bigendian_int32 (write_bigendian_int32 v32) = some (v32, []) ∧
    read_bigendian_uint32 (write_bigendian_uint32 u32) = some (u32, []) ∧
    read_bigendian_double (write_bigendian_double pattern) =
      some (pattern, []) :=
  ⟨read_write_var_int64 v64 h64l h64u,
    read_write_bigendian_int64 v64 h64l h64u,
    read_write_bigendian_uint64 u64 hu64,
    read_write_bigendian_int32 v32 h32l h32u,
    read_write_bigendian_uint32 u32 hu32,
    read_write_bigendian_double pattern hpat⟩

/-- C7, witness: the boundary values — `-2^63` and `2^63 - 1` for the
varint and signed 64-bit codec, `2^64 - 1` unsigned, `-2^31` signed and
`2^32 - 1` unsigned 32-bit, and the `+inf` double pattern
`0x7FF0000000000000` — all round-trip. -/
theorem stream_codec_roundtrip_witness :
    (read_var_int64 (write_var_int64 (-(2 : Int) ^ 63)) =
        some (-(2 : Int) ^ 63, []) ∧
      read_bigendian_int64 (write_bigendian_int64 (-(2 : Int) ^ 63)) =
        some (-(2 : Int) ^ 63, []) ∧
      read_bigendian_uint64 (write_bigendian_uint64 (2 ^ 64 - 1)) =
        some (2 ^ 64 - 1, []) ∧
      read_bigendian_int32 (write_bigendian_int32 (-(2 : Int) ^ 31)) =
        some (-(2 : Int) ^ 31, []) ∧
      read_bigendian_uint32 (write_bigendian_uint32 (2 ^ 32 - 1)) =
        some (2 ^ 32 - 1, []) ∧
      read_bigendian_double (write_bigendian_double 0x7FF0000000000000) =
        some (0x7FF0000000000000, [])) ∧
    read_var_int64 (write_var_int64 ((2 : Int) ^ 63 - 1)) =
      some ((2 : Int) ^ 63 - 1, []) :=
  ⟨stream_codec_roundtrip (-(2 : Int) ^ 63) (by norm_num) (by norm_num)
      (2 ^ 64 - 1) (by norm_num) (-(2 : Int) ^ 31) (by norm_num) (by norm_num)
      (2 ^ 32 - 1) (by norm_num) 0x7FF0000000000000 (by norm_num),
    (stream_codec_roundtrip ((2 : Int) ^ 63 - 1) (by norm_num) (by norm_num)
      0 (by norm_num) 0 (by norm_num) (by norm_num) 0 (by norm_num) 0
      (by norm_num)).1⟩

theorem opCount_eq_length (op : WriteOp) : opCount op = (opBytes op).length := by
  cases op with
  | write bs nested =>
      cases nested <;> simp [opCount, opBytes, List.length_append]
  | write_byte b => rfl
  | write_var_int64 v => rfl
  | write_bigendian_int64 v =>
      simp [opCount, opBytes, write_bigendian_int64, bytesBE_length]
  | write_bigendian_uint64 v =>
      simp [opCount, opBytes, write_bigendian_uint64, bytesBE_length]
  | write_bigendian_int32 v =>
      simp [opCount, opBytes, write_bigendian_int32, bytesBE_length]
  | write_bigendian_uint32 v =>
      simp [opCount, opBytes, write_bigendian_uint32, bytesBE_length]
  | write_bigendian_double p =>
      simp [opCount, opBytes, write_bigendian_double, bytesBE_length]

/-- C8: after every sequence of codec writes, the byte-counting output
stream reports exactly the number of bytes the real output stream holds
for the same writes — so in particular after each single write of any
sequence, since every initial segment of writes is itself a sequence —
including the extra bytes of the nested-mode length header; and a
fixed-width 32-bit write contributes exactly 4 bytes while 64-bit and
double writes contribute exactly 8, on both streams. -/
theorem byte_counting_accuracy :
    (∀ ops : List WriteOp,
      byteCountingRun ops = (outputStreamRun ops).length) ∧
    (∀ v : Int, (opBytes (WriteOp.write_bigendian_int32 v)).length = 4 ∧
      opCount (WriteOp.write_bigendian_int32 v) = 4) ∧
    (∀ u : Nat, (opBytes (WriteOp.write_bigendian_uint32 u)).length = 4 ∧
      opCount (WriteOp.write_bigendian_uint32 u) = 4) ∧
    (∀ v : Int, (opBytes (WriteOp.write_bigendian_int64 v)).length = 8 ∧
      opCount (WriteOp.write_bigendian_int64 v) = 8) ∧
    (∀ u : Nat, (opBytes (WriteOp.write_bigendian_uint64 u)).length = 8 ∧
      opCount (WriteOp.write_bigendian_uint64 u) = 8) ∧
    (∀ p : Nat, (opBytes (WriteOp.write_bigendian_double p)).length = 8 ∧
      opCount (WriteOp.write_bigendian_double p) = 8) := by
  refine ⟨?_, ?_, ?_, ?_, ?_, ?_⟩
  · intro ops
    induction ops with
    | nil => rfl
    | cons op rest ih =>
        simp only [byteCountingRun, outputStreamRun, List.length_append, ih,
          opCount_eq_length]
  · intro v
    exact ⟨by simp [opBytes, write_bigendian_int32, bytesBE_length], rfl⟩
  · intro u
    exact ⟨by simp [opBytes, write_bigendian_uint32, bytesBE_length], rfl⟩
  · intro v
    exact ⟨by simp [opBytes, write_bigendian_int64, bytesBE_length], rfl⟩
  · intro u
    exact ⟨by simp [opBytes, write_bigendian_uint64, bytesBE_length], rfl⟩
  · intro p
    exact ⟨by simp [opBytes, write_bigendian_double, bytesBE_length], rfl⟩

end SlowStream
